import Mathlib

/-!
# Verification of the MCleaner IMAP mail-cleaner (src/mcleaner.py)

Shallow embedding of the two core functions `process_mailbox_folder` and
`process_mailbox`, plus the per-account loop of `main`.  The IMAP server is
modelled as an oracle (`Server`) giving the outcome of each protocol command;
the embedding records the observable protocol commands and log lines as an
event trace, and Python exceptions as explicit `PyExc` values.

Modelling decisions, traced to `imaplib` semantics used by the source:
* `mail.select(folder)` returns a status tuple and does NOT raise on a
  missing folder: on a `NO` reply `imaplib` resets the connection state to
  `AUTH`.  The source ignores the returned status (line 25).
* `mail.search(...)` raises `imaplib.IMAP4.error` client-side when the
  connection is not in the `SELECTED` state, before any command is sent.
* `mail.fetch` either returns data or raises; when the returned data holds no
  tuple part, the source's local `msg` stays `None` and the subsequent
  `msg["Date"]` (line 40) raises a `TypeError`.
* `mail.store` raises `imaplib.IMAP4.error` on failure (no status branch in
  the source).
* `mail.close()` raises client-side when the state is not `SELECTED`.
* In `process_mailbox`, the local `user` is assigned only AFTER
  `imaplib.IMAP4_SSL(...)` returns (lines 61-62); both `except` handlers
  (lines 73-76) interpolate `user`, so when the connection attempt itself
  raises, the handler raises `UnboundLocalError` which escapes the function.
-/

/-- A Python exception value, as classified by the `except` clauses of
`process_mailbox` (src/mcleaner.py lines 73-76). -/
inductive PyExc where
  /-- Exception `imaplib.IMAP4.error` (matched by `except imaplib.IMAP4_SSL.error`). -/
  | imapError (msg : String)
  /-- Exception `TypeError` from subscripting `None` (line 40 when no tuple part). -/
  | typeError (msg : String)
  /-- Exception `UnboundLocalError` referencing a local before assignment. -/
  | unboundLocal (name : String)
deriving DecidableEq

/-- Outcome of the server side of `mail.search` on a selected folder. -/
inductive SearchRes where
  /-- Status `'OK'` with the returned message references, in server order. -/
  | ok (refs : List String)
  /-- A non-success status string (e.g. `'NO'`). -/
  | fail (status : String)
deriving DecidableEq

/-- Outcome of `mail.fetch(num, '(RFC822)')` for one message. -/
inductive FetchRes where
  /-- Fetch succeeds and the decoded message has the given `Date` header. -/
  | ok (date : String)
  /-- Fetch returns, but the data holds no tuple part: the source's `msg`
  stays `None` and `msg["Date"]` raises `TypeError`. -/
  | noTuple
  /-- Fetch raises `imaplib.IMAP4.error` with this message. -/
  | raises (msg : String)
deriving DecidableEq

/-- Oracle for the IMAP server behaviour seen through one connection. -/
structure Server where
  /-- Whether `SELECT folder` succeeds (folder exists and is selectable). -/
  selectOk : String → Bool
  /-- Result of `SEARCH (OLDER age)` on a selected folder. -/
  searchRes : String → Nat → SearchRes
  /-- Result of fetching one message of a folder. -/
  fetchRes : String → String → FetchRes
  /-- Value `some m` when `STORE` on this message raises `IMAP4.error m`. -/
  storeRes : String → String → Option String

/-- The `imaplib` connection state relevant to the source: `AUTH` after login,
`SELECTED f` after a successful `SELECT f`. -/
inductive MailState where
  | auth
  | selected (folder : String)
deriving DecidableEq

/-- One live connection: the server oracle plus the `imaplib` state. -/
structure Conn where
  srv : Server
  state : MailState

/-- Observable event inside `process_mailbox_folder`: protocol commands
actually issued and log lines emitted. -/
inductive FEvent where
  | select (folder : String)
  | search (folder : String) (age : Nat)
  | fetch (folder : String) (num : String)
  | store (folder : String) (num : String)
  | expunge (folder : String)
  | logInfo (msg : String)
  | logError (msg : String)
deriving DecidableEq

/-- Observable event at the account level (`process_mailbox` / `main`). -/
inductive AEvent where
  | connect (host : String)
  | login (user : String)
  /-- An event produced inside `process_mailbox_folder`. -/
  | inFolder (e : FEvent)
  | close
  | logout
  | logError (msg : String)
deriving DecidableEq

/-- Lift a `store` failure reported by the oracle to the raised exception. -/
def optStoreExc : Option String → Option PyExc
  | some m => some (.imapError m)
  | none => none

/-- Body of the `for i, num in enumerate(messages)` loop of
`process_mailbox_folder` (src/mcleaner.py lines 32-43) for one message `num`
at index `i`, with `total = len(messages)`.  Boundary messages (`i == 0` or
`i == len(messages) - 1`) are fetched for their `Date` header before the log
line; every message then gets `STORE +FLAGS \Deleted`.  Returns the events of
this iteration and the exception it raises, if any. -/
def markOne (srv : Server) (user folder : String) (total i : Nat) (num : String) :
    List FEvent × Option PyExc :=
  if i = 0 ∨ i = total - 1 then
    match srv.fetchRes folder num with
    | .raises m => ([.fetch folder num], some (.imapError m))
    | .noTuple =>
        ([.fetch folder num],
         some (.typeError "NoneType object is not subscriptable"))
    | .ok d =>
        ([FEvent.fetch folder num,
          .logInfo s!"{user}: {folder}: Add \"Delete\" mark for message #{num}, message date: {d}",
          .store folder num],
         optStoreExc (srv.storeRes folder num))
  else
    ([FEvent.logInfo s!"{user}: {folder}: Add \"Delete\" mark for message #{num}",
      .store folder num],
     optStoreExc (srv.storeRes folder num))

/-- The whole mark loop of `process_mailbox_folder` (lines 32-43): iterate
`markOne` over the search result, stopping at the first raised exception
(the source has no `try` inside the loop). -/
def markAll (srv : Server) (user folder : String) (total : Nat) :
    List String → Nat → List FEvent × Option PyExc
  | [], _ => ([], none)
  | num :: rest, i =>
    match markOne srv user folder total i num with
    | (ev, some e) => (ev, some e)
    | (ev, none) =>
      match markAll srv user folder total rest (i + 1) with
      | (ev2, r2) => (ev ++ ev2, r2)

/-- Embedding of `process_mailbox_folder(mail, user, folder, cut_time)`
(src/mcleaner.py lines 14-49).  `SELECT` first (line 25; on failure the state
falls back to `AUTH` and the following `SEARCH` raises client-side), then
`SEARCH (OLDER cut_time*60*60)` (line 27); on status `'OK'` the mark loop runs
(lines 31-43), on any other status an error is logged (line 45); the final
`EXPUNGE` (line 49) sits OUTSIDE the `if`, so it also runs on a failed search.
Returns the events and either the raised exception or the connection after the
call. -/
def process_mailbox_folder (c : Conn) (user folder : String) (cut_time : Nat) :
    List FEvent × Except PyExc Conn :=
  if c.srv.selectOk folder then
    match c.srv.searchRes folder (cut_time * 60 * 60) with
    | .fail st =>
        ([FEvent.select folder,
          .logInfo s!"{user}: {folder}: Search for messages older {cut_time}h",
          .search folder (cut_time * 60 * 60),
          .logError s!"{user}: {folder}: Failed to search emails: {st}",
          .logInfo s!"{user}: {folder}: Delete all marked messages",
          .expunge folder],
         .ok ⟨c.srv, .selected folder⟩)
    | .ok refs =>
        match markAll c.srv user folder refs.length refs 0 with
        | (mev, some e) =>
            ([FEvent.select folder,
              .logInfo s!"{user}: {folder}: Search for messages older {cut_time}h",
              .search folder (cut_time * 60 * 60)] ++ mev,
             .error e)
        | (mev, none) =>
            ([FEvent.select folder,
              .logInfo s!"{user}: {folder}: Search for messages older {cut_time}h",
              .search folder (cut_time * 60 * 60)] ++ mev ++
             [.logInfo s!"{user}: {folder}: Delete all marked messages",
              .expunge folder],
             .ok ⟨c.srv, .selected folder⟩)
  else
    ([FEvent.select folder,
      .logInfo s!"{user}: {folder}: Search for messages older {cut_time}h"],
     .error (.imapError "SEARCH command illegal in state AUTH"))

/-- The `for fld in cutoff_config` loop of `process_mailbox`
(src/mcleaner.py lines 66-67): folders processed in order on the same
connection; a raised exception aborts the loop (the `try` wraps the whole
loop body). -/
def foldFolders (c : Conn) (user : String) :
    List (String × Nat) → List FEvent × Except PyExc Conn
  | [] => ([], .ok c)
  | (fld, t) :: rest =>
    match process_mailbox_folder c user fld t with
    | (ev, .error e) => (ev, .error e)
    | (ev, .ok c2) =>
      match foldFolders c2 user rest with
      | (ev2, r2) => (ev ++ ev2, r2)

/-- Per-account connection settings (`config["mboxes"][mbox]`,
src/mcleaner.py lines 61-63). -/
structure MboxConfig where
  imap : String
  username : String
  password : String

/-- One account as seen by `process_mailbox`: its configuration plus the
outcome of the connect and login steps and the server oracle behind them. -/
structure Account where
  cfg : MboxConfig
  /-- Whether `imaplib.IMAP4_SSL(host)` (line 61) raises. -/
  connectFails : Bool
  /-- Value `some m`: `mail.login(...)` (line 63) raises `IMAP4.error m`. -/
  loginFails : Option String
  srv : Server

/-- Rendering of the modelled exception, as interpolated by the handlers. -/
def excMsg : PyExc → String
  | .imapError m => m
  | .typeError m => m
  | .unboundLocal n => n

/-- Whether the exception is matched by `except imaplib.IMAP4_SSL.error`
(src/mcleaner.py line 73); `IMAP4_SSL.error` is `imaplib.IMAP4.error`. -/
def isImapError : PyExc → Bool
  | .imapError _ => true
  | _ => false

/-- The log line emitted by the `except` handlers of `process_mailbox`
(lines 73-76), given that `user` is bound. -/
def exceptLog (user : String) (e : PyExc) : String :=
  if isImapError e then s!"{user}: IMAP error: {excMsg e}"
  else s!"{user}: Error processing mailbox: {excMsg e}"

/-- Embedding of `process_mailbox(mbox_config, cutoff_config)` (src/mcleaner.py
lines 51-76).  The `try` wraps connect, login, the folder loop and the
`close`/`logout` teardown.  Key transliteration points:
* When the connection attempt itself raises (line 61), the matching `except`
  handler interpolates the still-unbound local `user`, so the handler raises
  `UnboundLocalError`, which escapes `process_mailbox`: no event is emitted
  and the exception is returned as escaping.
* A login failure raises `IMAP4.error`, caught by the first handler (line 73),
  which logs and returns normally.
* An exception raised inside the folder loop aborts the loop, is caught and
  logged, and `close`/`logout` are skipped (the source has no `finally`).
* On normal loop completion, `mail.close()` (line 70) requires the `SELECTED`
  state; with at least one folder selected it succeeds and `logout` follows;
  from `AUTH` (empty folder map) it raises, which is caught and logged, and
  `logout` is skipped.
Returns the account's events and the exception escaping the call, if any. -/
def process_mailbox : Account → List (String × Nat) → List AEvent × Option PyExc
  | ⟨⟨host, user, _pw⟩, connectFails, loginFails, srv⟩, cutoff =>
    if connectFails then
      ([], some (.unboundLocal "user"))
    else
      match loginFails with
      | some m =>
          ([.connect host, .login user, .logError s!"{user}: IMAP error: {m}"],
           none)
      | none =>
          match foldFolders ⟨srv, .auth⟩ user cutoff with
          | (fev, .error e) =>
              ([AEvent.connect host, .login user] ++ fev.map AEvent.inFolder ++
               [.logError (exceptLog user e)], none)
          | (fev, .ok c1) =>
              match c1.state with
              | .selected _ =>
                  ([AEvent.connect host, .login user] ++
                   fev.map AEvent.inFolder ++ [.close, .logout], none)
              | .auth =>
                  ([AEvent.connect host, .login user] ++
                   fev.map AEvent.inFolder ++
                   [.logError
                     (exceptLog user (.imapError "CLOSE command illegal in state AUTH"))],
                   none)

/-- The per-account loop of `main` (src/mcleaner.py lines 100-101):
`process_mailbox` is called for each configured account in order, with the
shared `cutofftime` map; `main` has no `try` around the loop, so an exception
escaping `process_mailbox` aborts the whole loop. -/
def runAccounts : List Account → List (String × Nat) → List AEvent × Option PyExc
  | [], _ => ([], none)
  | a :: rest, cutoff =>
    match process_mailbox a cutoff with
    | (ev, some e) => (ev, some e)
    | (ev, none) =>
      match runAccounts rest cutoff with
      | (ev2, r2) => (ev ++ ev2, r2)

/-- Number of events of a folder trace satisfying `p`. -/
def countF (p : FEvent → Bool) (l : List FEvent) : Nat := (l.filter p).length

/-- Recognise a `STORE +FLAGS \Deleted` command (a deletion mark). -/
def isStoreEv : FEvent → Bool
  | .store _ _ => true
  | _ => false

/-- Recognise a `FETCH` command (a boundary header fetch). -/
def isFetchEv : FEvent → Bool
  | .fetch _ _ => true
  | _ => false

/-- Recognise an `EXPUNGE` command (the commit step). -/
def isExpungeEv : FEvent → Bool
  | .expunge _ => true
  | _ => false

/-- The message references marked for deletion, in the order the `STORE`
commands were issued. -/
def storeRefs : List FEvent → List String :=
  List.filterMap fun e =>
    match e with
    | .store _ n => some n
    | _ => none

/-- Number of events of an account trace satisfying `p`. -/
def countA (p : AEvent → Bool) (l : List AEvent) : Nat := (l.filter p).length

/-- Recognise the `CLOSE` half of session teardown. -/
def isCloseEv : AEvent → Bool
  | .close => true
  | _ => false

/-- Recognise the `LOGOUT` half of session teardown. -/
def isLogoutEv : AEvent → Bool
  | .logout => true
  | _ => false

/-- Recognise the connection attempt to a given host. -/
def isConnectEvTo (h : String) : AEvent → Bool
  | .connect g => g == h
  | _ => false

/-- Recognise a `SELECT` of the given folder inside an account trace. -/
def isSelectAFor (f : String) : AEvent → Bool
  | .inFolder (.select g) => g == f
  | _ => false

/-- Recognise an `EXPUNGE` inside an account trace. -/
def isExpungeA : AEvent → Bool
  | .inFolder (.expunge _) => true
  | _ => false

/-- The message references marked for deletion in an account trace. -/
def storeRefsA : List AEvent → List String :=
  List.filterMap fun e =>
    match e with
    | .inFolder (.store _ n) => some n
    | _ => none

/-- Whether a folder-loop result is a normal (non-raising) completion. -/
def resOk : Except PyExc Conn → Bool
  | .ok _ => true
  | .error _ => false

/-- Whether a fetch outcome yields a decodable message with a `Date`. -/
def fetchHasDate : FetchRes → Bool
  | .ok _ => true
  | _ => false

/-- A fully co-operative server: every folder selectable, a three-message
search result everywhere, all fetches dated, all stores succeed. -/
def happySrv : Server where
  selectOk := fun _ => true
  searchRes := fun _ _ => .ok ["1", "2", "3"]
  fetchRes := fun _ _ => .ok "Mon, 01 Jan 2024 10:00:00 +0000"
  storeRes := fun _ _ => none

/-- Like `happySrv` but folder `"F"` is missing: its `SELECT` fails. -/
def noFolderSrv : Server where
  selectOk := fun f => f != "F"
  searchRes := fun _ _ => .ok ["1", "2", "3"]
  fetchRes := fun _ _ => .ok "Mon, 01 Jan 2024 10:00:00 +0000"
  storeRes := fun _ _ => none

/-- Every search reports the non-success status `'NO'`. -/
def searchFailSrv : Server where
  selectOk := fun _ => true
  searchRes := fun _ _ => .fail "NO"
  fetchRes := fun _ _ => .ok "Mon, 01 Jan 2024 10:00:00 +0000"
  storeRes := fun _ _ => none

/-- The fetch of message `"1"` raises; everything else succeeds. -/
def fetchFailSrv : Server where
  selectOk := fun _ => true
  searchRes := fun _ _ => .ok ["1", "2", "3"]
  fetchRes := fun _ n =>
    if n = "1" then .raises "FETCH failed"
    else .ok "Mon, 01 Jan 2024 10:00:00 +0000"
  storeRes := fun _ _ => none

/-- The store on message `"2"` raises; everything else succeeds. -/
def storeFailSrv : Server where
  selectOk := fun _ => true
  searchRes := fun _ _ => .ok ["1", "2", "3"]
  fetchRes := fun _ _ => .ok "Mon, 01 Jan 2024 10:00:00 +0000"
  storeRes := fun _ n => if n = "2" then some "STORE failed" else none

/-- Every search succeeds with zero matches. -/
def emptySrv : Server where
  selectOk := fun _ => true
  searchRes := fun _ _ => .ok []
  fetchRes := fun _ _ => .ok "Mon, 01 Jan 2024 10:00:00 +0000"
  storeRes := fun _ _ => none

/-- A reachable, authenticating account backed by `happySrv`. -/
def happyAcct : Account where
  cfg := ⟨"imap.example.org", "alice", "pw"⟩
  connectFails := false
  loginFails := none
  srv := happySrv

/-- A reachable, authenticating account whose folder `"F"` is missing. -/
def noFolderAcct : Account where
  cfg := ⟨"imap.example.org", "alice", "pw"⟩
  connectFails := false
  loginFails := none
  srv := noFolderSrv

/-- An account whose connection attempt (`IMAP4_SSL`) raises. -/
def connFailAcct : Account where
  cfg := ⟨"unreachable.example.org", "bob", "pw"⟩
  connectFails := true
  loginFails := none
  srv := happySrv

/-- Recognise a `SELECT` of the given folder inside a folder trace. -/
def isSelectEvFor (g : String) : FEvent → Bool
  | .select g2 => g2 == g
  | _ => false

/-- The message references whose headers were fetched, in the order the
`FETCH` commands were issued. -/
def fetchRefs : List FEvent → List String :=
  List.filterMap fun e =>
    match e with
    | .fetch _ n => some n
    | _ => none

/-- The fetch of message `"3"` (the last reference) raises; everything else
succeeds. -/
def lastFetchFailSrv : Server where
  selectOk := fun _ => true
  searchRes := fun _ _ => .ok ["1", "2", "3"]
  fetchRes := fun _ n =>
    if n = "3" then .raises "FETCH failed"
    else .ok "Mon, 01 Jan 2024 10:00:00 +0000"
  storeRes := fun _ _ => none

theorem fetchHasDate_ok {fr : FetchRes} (h : fetchHasDate fr = true) :
    ∃ d, fr = FetchRes.ok d := by
  cases fr with
  | ok d => exact ⟨d, rfl⟩
  | noTuple => simp [fetchHasDate] at h
  | raises m => simp [fetchHasDate] at h

theorem countF_append (p : FEvent → Bool) (l1 l2 : List FEvent) :
    countF p (l1 ++ l2) = countF p l1 + countF p l2 := by
  simp [countF, List.filter_append]

theorem countA_append (p : AEvent → Bool) (l1 l2 : List AEvent) :
    countA p (l1 ++ l2) = countA p l1 + countA p l2 := by
  simp [countA, List.filter_append]

theorem storeRefs_append (l1 l2 : List FEvent) :
    storeRefs (l1 ++ l2) = storeRefs l1 ++ storeRefs l2 := by
  simp [storeRefs]

theorem storeRefsA_map_inFolder (l : List FEvent) :
    storeRefsA (l.map AEvent.inFolder) = storeRefs l := by
  induction l with
  | nil => rfl
  | cons a l ih =>
    cases a <;> simp [storeRefsA, storeRefs] at ih ⊢ <;> exact ih

theorem countA_map_inFolder (p : AEvent → Bool)
    (hp : ∀ e, p (AEvent.inFolder e) = false) :
    ∀ l : List FEvent, countA p (l.map AEvent.inFolder) = 0
  | [] => rfl
  | a :: l => by
    simp only [List.map_cons, countA, List.filter_cons, hp a]
    exact countA_map_inFolder p hp l

@[simp] theorem storeRefs_nil : storeRefs [] = [] := rfl

@[simp] theorem storeRefs_cons (e : FEvent) (l : List FEvent) :
    storeRefs (e :: l) =
      (match e with | FEvent.store _ n => [n] | _ => []) ++ storeRefs l := by
  cases e <;> rfl

/-- On a result set whose boundary fetches all succeed and whose stores all
succeed, the mark loop raises nothing and issues one `STORE` per reference,
in order. -/
theorem markAll_stores_all (srv : Server) (user folder : String) (total : Nat) :
    ∀ (msgs : List String) (i : Nat),
    (∀ r ∈ msgs, fetchHasDate (srv.fetchRes folder r) = true) →
    (∀ r ∈ msgs, srv.storeRes folder r = none) →
    (markAll srv user folder total msgs i).2 = none ∧
    storeRefs (markAll srv user folder total msgs i).1 = msgs
  | [], _, _, _ => ⟨rfl, rfl⟩
  | num :: rest, i, hf, hs => by
    have hf0 := hf num (List.mem_cons_self num rest)
    have hs0 := hs num (List.mem_cons_self num rest)
    obtain ⟨d, hd⟩ := fetchHasDate_ok hf0
    have hfr : ∀ r ∈ rest, fetchHasDate (srv.fetchRes folder r) = true :=
      fun r hr => hf r (List.mem_cons_of_mem _ hr)
    have hsr : ∀ r ∈ rest, srv.storeRes folder r = none :=
      fun r hr => hs r (List.mem_cons_of_mem _ hr)
    obtain ⟨ih1, ih2⟩ :=
      markAll_stores_all srv user folder total rest (i + 1) hfr hsr
    rcases hrec : markAll srv user folder total rest (i + 1) with ⟨ev2, r2⟩
    rw [hrec] at ih1 ih2
    simp only at ih1 ih2
    by_cases hb : i = 0 ∨ i = total - 1
    · simp [markAll, markOne, hb, hd, hs0, optStoreExc, hrec, ih1,
        storeRefs_append, ih2]
    · simp [markAll, markOne, hb, hd, hs0, optStoreExc, hrec, ih1,
        storeRefs_append, ih2]

/-- One unfolding step of the mark loop when the current iteration does not
raise. -/
theorem markAll_cons_ok (srv : Server) (user folder : String) (total : Nat)
    (num : String) (rest : List String) (i : Nat)
    (h2 : (markOne srv user folder total i num).2 = none) :
    markAll srv user folder total (num :: rest) i =
      ((markOne srv user folder total i num).1 ++
         (markAll srv user folder total rest (i + 1)).1,
       (markAll srv user folder total rest (i + 1)).2) := by
  rcases hone : markOne srv user folder total i num with ⟨ev1, r1⟩
  rw [hone] at h2
  simp only at h2
  subst h2
  simp [markAll, hone]

/-- A successful fetch and store leave the iteration without exception. -/
theorem markOne_exc_none (srv : Server) (user folder : String) (total i : Nat)
    (num : String) (hf0 : fetchHasDate (srv.fetchRes folder num) = true)
    (hs0 : srv.storeRes folder num = none) :
    (markOne srv user folder total i num).2 = none := by
  obtain ⟨d, hd⟩ := fetchHasDate_ok hf0
  by_cases hb : i = 0 ∨ i = total - 1 <;>
    simp [markOne, hb, hd, hs0, optStoreExc]

/-- A boundary iteration issues exactly one fetch, whatever its outcome. -/
theorem markOne_fetch_one (srv : Server) (user folder : String) (total i : Nat)
    (num : String) (hb : i = 0 ∨ i = total - 1) :
    countF isFetchEv (markOne srv user folder total i num).1 = 1 := by
  rcases h : srv.fetchRes folder num with d | _ | m <;>
    simp [markOne, hb, h, countF, isFetchEv]

/-- A non-boundary iteration issues no fetch. -/
theorem markOne_fetch_zero (srv : Server) (user folder : String) (total i : Nat)
    (num : String) (hb : ¬ (i = 0 ∨ i = total - 1)) :
    countF isFetchEv (markOne srv user folder total i num).1 = 0 := by
  simp [markOne, hb, countF, isFetchEv]

/-- Number of boundary fetches issued by an all-successful mark pass starting
at index `i` with `i + msgs.length = total`: one for index `0`, one for index
`total - 1` (they coincide on a single message). -/
theorem markAll_fetch_count (srv : Server) (user folder : String) (total : Nat) :
    ∀ (msgs : List String) (i : Nat), i + msgs.length = total →
    (∀ r ∈ msgs, fetchHasDate (srv.fetchRes folder r) = true) →
    (∀ r ∈ msgs, srv.storeRes folder r = none) →
    countF isFetchEv (markAll srv user folder total msgs i).1 =
      (if msgs.length = 0 then 0 else if i = 0 ∧ 2 ≤ msgs.length then 2 else 1)
  | [], _, _, _, _ => by simp [markAll, countF]
  | num :: rest, i, hinv, hf, hs => by
    have hf0 := hf num (List.mem_cons_self num rest)
    have hs0 := hs num (List.mem_cons_self num rest)
    have hone := markOne_exc_none srv user folder total i num hf0 hs0
    have hcons := markAll_cons_ok srv user folder total num rest i hone
    have ih := markAll_fetch_count srv user folder total rest (i + 1)
      (by simp at hinv ⊢; omega)
      (fun r hr => hf r (List.mem_cons_of_mem _ hr))
      (fun r hr => hs r (List.mem_cons_of_mem _ hr))
    rw [hcons]
    simp only [countF_append, ih]
    rcases rest with _ | ⟨num2, rest2⟩
    · have hb : i = 0 ∨ i = total - 1 := Or.inr (by simp at hinv; omega)
      rw [markOne_fetch_one srv user folder total i num hb]
      simp
    · have hne : ¬ i = total - 1 := by simp at hinv; omega
      by_cases h0 : i = 0
      · rw [markOne_fetch_one srv user folder total i num (Or.inl h0)]
        simp [h0]
      · rw [markOne_fetch_zero srv user folder total i num (by tauto)]
        simp [h0]

/-- Each iteration whose boundary fetch (if any) succeeds issues exactly the
mark for its own message, whatever the store outcome. -/
theorem markOne_store_one (srv : Server) (user folder : String) (total i : Nat)
    (num : String) (hf0 : fetchHasDate (srv.fetchRes folder num) = true) :
    storeRefs (markOne srv user folder total i num).1 = [num] := by
  obtain ⟨d, hd⟩ := fetchHasDate_ok hf0
  by_cases hb : i = 0 ∨ i = total - 1 <;>
    simp [markOne, hb, hd]

/-- Mark loop on `pre ++ bad :: post` when every boundary fetch succeeds, the
stores on `pre` succeed and the store on `bad` raises: the loop raises the
store error and the marks issued are exactly those for `pre` and `bad` —
nothing in `post` is marked. -/
theorem markAll_store_fail (srv : Server) (user folder : String) (total : Nat)
    (bad m : String) (hbad : srv.storeRes folder bad = some m) :
    ∀ (pre post : List String) (i : Nat),
    (∀ r ∈ pre ++ bad :: post, fetchHasDate (srv.fetchRes folder r) = true) →
    (∀ r ∈ pre, srv.storeRes folder r = none) →
    (markAll srv user folder total (pre ++ bad :: post) i).2 =
        some (.imapError m) ∧
    storeRefs (markAll srv user folder total (pre ++ bad :: post) i).1 =
        pre ++ [bad]
  | [], post, i, hf, _ => by
    have hf0 := hf bad (by simp)
    obtain ⟨d, hd⟩ := fetchHasDate_ok hf0
    by_cases hb : i = 0 ∨ i = total - 1 <;>
      simp [markAll, markOne, hb, hd, hbad, optStoreExc]
  | num :: pre, post, i, hf, hs => by
    have hf0 := hf num (by simp)
    have hs0 := hs num (by simp)
    have hone := markOne_exc_none srv user folder total i num hf0 hs0
    have hcons :=
      markAll_cons_ok srv user folder total num (pre ++ bad :: post) i hone
    have ih := markAll_store_fail srv user folder total bad m hbad pre post
      (i + 1)
      (fun r hr => hf r (by simp at hr ⊢; tauto))
      (fun r hr => hs r (List.mem_cons_of_mem _ hr))
    simp only [List.cons_append]
    rw [hcons]
    simp only [storeRefs_append, ih.1, ih.2,
      markOne_store_one srv user folder total i num hf0]
    simp

@[simp] theorem fetchRefs_nil : fetchRefs [] = [] := rfl

@[simp] theorem fetchRefs_cons (e : FEvent) (l : List FEvent) :
    fetchRefs (e :: l) =
      (match e with | FEvent.fetch _ n => [n] | _ => []) ++ fetchRefs l := by
  cases e <;> rfl

theorem fetchRefs_append (l1 l2 : List FEvent) :
    fetchRefs (l1 ++ l2) = fetchRefs l1 ++ fetchRefs l2 := by
  simp [fetchRefs]

/-- A boundary iteration fetches exactly its own message, whatever the fetch
outcome. -/
theorem markOne_fetch_refs_boundary (srv : Server) (user folder : String)
    (total i : Nat) (num : String) (hb : i = 0 ∨ i = total - 1) :
    fetchRefs (markOne srv user folder total i num).1 = [num] := by
  rcases h : srv.fetchRes folder num with d | _ | mm <;>
    simp [markOne, hb, h]

/-- A non-boundary iteration fetches nothing. -/
theorem markOne_fetch_refs_mid (srv : Server) (user folder : String)
    (total i : Nat) (num : String) (hb : ¬ (i = 0 ∨ i = total - 1)) :
    fetchRefs (markOne srv user folder total i num).1 = [] := by
  simp [markOne, hb]

/-- The references fetched by an all-successful mark pass starting at index
`i` with `i + msgs.length = total`: the head when `i = 0`, then the last
element of what remains. -/
theorem markAll_fetch_refs (srv : Server) (user folder : String) (total : Nat) :
    ∀ (msgs : List String) (i : Nat), i + msgs.length = total →
    (∀ r ∈ msgs, fetchHasDate (srv.fetchRes folder r) = true) →
    (∀ r ∈ msgs, srv.storeRes folder r = none) →
    fetchRefs (markAll srv user folder total msgs i).1 =
      (if i = 0 then msgs.take 1 else []) ++
      ((if i = 0 then msgs.drop 1 else msgs).getLast?).toList
  | [], i, _, _, _ => by by_cases h0 : i = 0 <;> simp [markAll, h0]
  | num :: rest, i, hinv, hf, hs => by
    have hf0 := hf num (List.mem_cons_self num rest)
    have hs0 := hs num (List.mem_cons_self num rest)
    have hone := markOne_exc_none srv user folder total i num hf0 hs0
    have hcons := markAll_cons_ok srv user folder total num rest i hone
    have ih := markAll_fetch_refs srv user folder total rest (i + 1)
      (by simp at hinv ⊢; omega)
      (fun r hr => hf r (List.mem_cons_of_mem _ hr))
      (fun r hr => hs r (List.mem_cons_of_mem _ hr))
    rw [hcons, fetchRefs_append, ih]
    rcases rest with _ | ⟨num2, rest2⟩
    · have hb : i = 0 ∨ i = total - 1 := Or.inr (by simp at hinv; omega)
      rw [markOne_fetch_refs_boundary srv user folder total i num hb]
      by_cases h0 : i = 0 <;> simp [h0]
    · have hne : ¬ i = total - 1 := by simp at hinv; omega
      by_cases h0 : i = 0
      · rw [markOne_fetch_refs_boundary srv user folder total i num (Or.inl h0)]
        simp [h0]
      · rw [markOne_fetch_refs_mid srv user folder total i num (by tauto)]
        simp [h0, List.getLast?_cons_cons]

/-- Mark loop on `pre ++ bad :: post` where `bad` sits at a boundary index,
every fetch and store on `pre` succeeds and the fetch of `bad` raises: the
loop stops at `bad`, and the marks issued are exactly those for `pre` — `bad`
and everything after it stay unmarked. -/
theorem markAll_fetch_fail (srv : Server) (user folder : String) (total : Nat)
    (bad m : String) (hfetch : srv.fetchRes folder bad = .raises m) :
    ∀ (pre post : List String) (i : Nat),
    (i + pre.length = 0 ∨ i + pre.length = total - 1) →
    (∀ r ∈ pre, fetchHasDate (srv.fetchRes folder r) = true) →
    (∀ r ∈ pre, srv.storeRes folder r = none) →
    (markAll srv user folder total (pre ++ bad :: post) i).2 =
        some (.imapError m) ∧
    storeRefs (markAll srv user folder total (pre ++ bad :: post) i).1 = pre
  | [], post, i, hb, _, _ => by
    simp only [List.length_nil, Nat.add_zero] at hb
    simp [markAll, markOne, hb, hfetch]
  | num :: pre, post, i, hb, hf, hs => by
    have hf0 := hf num (List.mem_cons_self num pre)
    have hs0 := hs num (List.mem_cons_self num pre)
    have hone := markOne_exc_none srv user folder total i num hf0 hs0
    have hcons :=
      markAll_cons_ok srv user folder total num (pre ++ bad :: post) i hone
    have ih := markAll_fetch_fail srv user folder total bad m hfetch pre post
      (i + 1)
      (by simp at hb ⊢; omega)
      (fun r hr => hf r (List.mem_cons_of_mem _ hr))
      (fun r hr => hs r (List.mem_cons_of_mem _ hr))
    simp only [List.cons_append]
    rw [hcons]
    simp only [storeRefs_append, ih.1, ih.2,
      markOne_store_one srv user folder total i num hf0]
    simp

/-- One mark-loop iteration never issues an expunge. -/
theorem markOne_no_expunge (srv : Server) (user folder : String)
    (total i : Nat) (num : String) :
    countF isExpungeEv (markOne srv user folder total i num).1 = 0 := by
  by_cases hb : i = 0 ∨ i = total - 1
  · rcases hfr : srv.fetchRes folder num with d | _ | mm <;>
      simp [markOne, hb, hfr, countF, isExpungeEv]
  · simp [markOne, hb, countF, isExpungeEv]

/-- The mark loop never issues an expunge. -/
theorem markAll_no_expunge (srv : Server) (user folder : String) (total : Nat) :
    ∀ (msgs : List String) (i : Nat),
      countF isExpungeEv (markAll srv user folder total msgs i).1 = 0
  | [], _ => rfl
  | num :: rest, i => by
    rcases hone : markOne srv user folder total i num with ⟨ev, r⟩
    have hev : countF isExpungeEv ev = 0 := by
      have h := markOne_no_expunge srv user folder total i num
      rw [hone] at h
      exact h
    rcases r with _ | e
    · simp [markAll, hone, countF_append, hev,
        markAll_no_expunge srv user folder total rest (i + 1)]
    · simp [markAll, hone, hev]

/-- Evaluation of `process_mailbox_folder` on the all-successful path: select succeeds,
search returns `'OK'`, the mark loop raises nothing. -/
theorem pmf_ok_eq (srv : Server) (st0 : MailState) (user folder : String)
    (t : Nat) (refs : List String)
    (hsel : srv.selectOk folder = true)
    (hsearch : srv.searchRes folder (t * 60 * 60) = .ok refs)
    (hmk : (markAll srv user folder refs.length refs 0).2 = none) :
    process_mailbox_folder ⟨srv, st0⟩ user folder t =
      ([FEvent.select folder,
        .logInfo s!"{user}: {folder}: Search for messages older {t}h",
        .search folder (t * 60 * 60)] ++
       (markAll srv user folder refs.length refs 0).1 ++
       [.logInfo s!"{user}: {folder}: Delete all marked messages",
        .expunge folder],
       .ok ⟨srv, .selected folder⟩) := by
  rcases hmk2 : markAll srv user folder refs.length refs 0 with ⟨mev, r⟩
  rw [hmk2] at hmk
  simp only at hmk
  subst hmk
  simp [process_mailbox_folder, hsel, hsearch, hmk2]

/-- Evaluation of `process_mailbox_folder` when the mark loop raises: the events stop at the
mark loop's and the exception propagates (no log line, no expunge after). -/
theorem pmf_err_eq (srv : Server) (st0 : MailState) (user folder : String)
    (t : Nat) (refs : List String) (e : PyExc)
    (hsel : srv.selectOk folder = true)
    (hsearch : srv.searchRes folder (t * 60 * 60) = .ok refs)
    (hmk : (markAll srv user folder refs.length refs 0).2 = some e) :
    process_mailbox_folder ⟨srv, st0⟩ user folder t =
      ([FEvent.select folder,
        .logInfo s!"{user}: {folder}: Search for messages older {t}h",
        .search folder (t * 60 * 60)] ++
       (markAll srv user folder refs.length refs 0).1,
       .error e) := by
  rcases hmk2 : markAll srv user folder refs.length refs 0 with ⟨mev, r⟩
  rw [hmk2] at hmk
  simp only at hmk
  subst hmk
  simp [process_mailbox_folder, hsel, hsearch, hmk2]

/-- Claim C9 (confirmed): for every threshold `t ≥ 0` in whole hours, the reap
of a selectable folder issues its search with an age argument of exactly
`t * 3600` seconds (the source computes `cut_time * 60 * 60`, line 27). -/
theorem C9_search_age_is_threshold_times_3600 (srv : Server) (st0 : MailState)
    (user folder : String) (t : Nat)
    (hsel : srv.selectOk folder = true) :
    FEvent.search folder (t * 3600) ∈
      (process_mailbox_folder ⟨srv, st0⟩ user folder t).1 := by
  have h36 : t * 3600 = t * 60 * 60 := by ring
  rw [h36]
  rcases hs : srv.searchRes folder (t * 60 * 60) with refs | st
  · rcases hr : (markAll srv user folder refs.length refs 0).2 with _ | e
    · rw [pmf_ok_eq srv st0 user folder t refs hsel hs hr]
      simp
    · rw [pmf_err_eq srv st0 user folder t refs e hsel hs hr]
      simp
  · simp [process_mailbox_folder, hsel, hs]

/-- Witness for C9: threshold 24 hours on a concrete server. -/
theorem C9_witness :
    FEvent.search "INBOX" (24 * 3600) ∈
      (process_mailbox_folder ⟨happySrv, .auth⟩ "alice" "INBOX" 24).1 :=
  C9_search_age_is_threshold_times_3600 happySrv .auth "alice" "INBOX" 24 rfl

/-- Claim C8 (confirmed): when the search succeeds with zero matching messages,
zero marks and zero fetches are issued, but the expunge step still executes
exactly once. -/
theorem C8_empty_result_still_expunges (srv : Server) (st0 : MailState)
    (user folder : String) (t : Nat)
    (hsel : srv.selectOk folder = true)
    (hsearch : srv.searchRes folder (t * 60 * 60) = .ok []) :
    countF isStoreEv (process_mailbox_folder ⟨srv, st0⟩ user folder t).1 = 0 ∧
    countF isFetchEv (process_mailbox_folder ⟨srv, st0⟩ user folder t).1 = 0 ∧
    countF isExpungeEv (process_mailbox_folder ⟨srv, st0⟩ user folder t).1 = 1 := by
  rw [pmf_ok_eq srv st0 user folder t [] hsel hsearch rfl]
  simp [markAll, countF, isStoreEv, isFetchEv, isExpungeEv]

/-- Witness for C8: empty folder `Spam` on a concrete server. -/
theorem C8_witness :
    countF isStoreEv (process_mailbox_folder ⟨emptySrv, .auth⟩ "alice" "Spam" 1).1 = 0 ∧
    countF isFetchEv (process_mailbox_folder ⟨emptySrv, .auth⟩ "alice" "Spam" 1).1 = 0 ∧
    countF isExpungeEv (process_mailbox_folder ⟨emptySrv, .auth⟩ "alice" "Spam" 1).1 = 1 :=
  C8_empty_result_still_expunges emptySrv .auth "alice" "Spam" 1 rfl rfl

/-- Claim C7 (confirmed): on a successful search returning references
`r0 :: rest` (so `N ≥ 1`) whose boundary fetches and stores all succeed,
exactly `N` deletion marks are issued — one per reference, in the
server-returned order — and exactly `min N 2` boundary fetches occur, and
they target precisely the first and the last reference in the returned order
(just the first when `N = 1`). -/
theorem C7_marks_per_reference_and_boundary_fetches (srv : Server)
    (st0 : MailState) (user folder : String) (t : Nat) (r0 : String)
    (rest : List String)
    (hsel : srv.selectOk folder = true)
    (hsearch : srv.searchRes folder (t * 60 * 60) = .ok (r0 :: rest))
    (hf : ∀ r ∈ r0 :: rest, fetchHasDate (srv.fetchRes folder r) = true)
    (hs : ∀ r ∈ r0 :: rest, srv.storeRes folder r = none) :
    storeRefs (process_mailbox_folder ⟨srv, st0⟩ user folder t).1 =
      r0 :: rest ∧
    countF isFetchEv (process_mailbox_folder ⟨srv, st0⟩ user folder t).1 =
      min (r0 :: rest).length 2 ∧
    fetchRefs (process_mailbox_folder ⟨srv, st0⟩ user folder t).1 =
      r0 :: rest.getLast?.toList := by
  obtain ⟨hmk, hsr⟩ :=
    markAll_stores_all srv user folder (r0 :: rest).length (r0 :: rest) 0 hf hs
  have hfc := markAll_fetch_count srv user folder (r0 :: rest).length
    (r0 :: rest) 0 (by simp) hf hs
  have hfr := markAll_fetch_refs srv user folder (r0 :: rest).length
    (r0 :: rest) 0 (by simp) hf hs
  rw [pmf_ok_eq srv st0 user folder t (r0 :: rest) hsel hsearch hmk]
  refine ⟨?_, ?_, ?_⟩
  · rw [storeRefs_append, storeRefs_append, hsr]
    simp
  · rw [countF_append, countF_append, hfc]
    simp [countF, isFetchEv]
    split_ifs with h2 <;> omega
  · rw [fetchRefs_append, fetchRefs_append, hfr]
    simp

/-- Witness for C7: three messages on a concrete server — 3 marks in order,
2 boundary fetches, targeting the first and the last reference. -/
theorem C7_witness :
    storeRefs (process_mailbox_folder ⟨happySrv, .auth⟩ "alice" "INBOX" 24).1 =
      ["1", "2", "3"] ∧
    countF isFetchEv (process_mailbox_folder ⟨happySrv, .auth⟩ "alice" "INBOX" 24).1 =
      min (["1", "2", "3"] : List String).length 2 ∧
    fetchRefs (process_mailbox_folder ⟨happySrv, .auth⟩ "alice" "INBOX" 24).1 =
      ["1", "3"] :=
  C7_marks_per_reference_and_boundary_fetches happySrv .auth "alice" "INBOX" 24
    "1" ["2", "3"] rfl rfl (fun _ _ => rfl) (fun _ _ => rfl)

/-- Claim C4 counterexample: with the search on folder `Archive` returning the
non-success status `'NO'`, the claim's "no commit (expunge) is attempted for
that folder" is false — the expunge executes, since line 49 sits outside the
status check. -/
theorem C4_cex_expunge_after_failed_search :
    ¬ countF isExpungeEv
        (process_mailbox_folder ⟨searchFailSrv, .auth⟩ "alice" "Archive" 1).1 = 0 := by
  decide

/-- Claim C4 (amended): on a non-success search status an error identifying
account/folder/status is logged and no messages are marked or fetched, and
the next folder is still processed — but the expunge is still executed
exactly once for the failed folder. -/
theorem C4_search_fail_logs_and_continues (srv : Server) (st0 : MailState)
    (user folder : String) (t : Nat) (st : String)
    (hsel : srv.selectOk folder = true)
    (hsearch : srv.searchRes folder (t * 60 * 60) = .fail st) :
    FEvent.logError s!"{user}: {folder}: Failed to search emails: {st}" ∈
      (process_mailbox_folder ⟨srv, st0⟩ user folder t).1 ∧
    countF isStoreEv (process_mailbox_folder ⟨srv, st0⟩ user folder t).1 = 0 ∧
    countF isFetchEv (process_mailbox_folder ⟨srv, st0⟩ user folder t).1 = 0 ∧
    countF isExpungeEv (process_mailbox_folder ⟨srv, st0⟩ user folder t).1 = 1 ∧
    (∀ rest, foldFolders ⟨srv, st0⟩ user ((folder, t) :: rest) =
      ((process_mailbox_folder ⟨srv, st0⟩ user folder t).1 ++
         (foldFolders ⟨srv, .selected folder⟩ user rest).1,
       (foldFolders ⟨srv, .selected folder⟩ user rest).2)) := by
  have hpmf : process_mailbox_folder ⟨srv, st0⟩ user folder t =
      ([FEvent.select folder,
        .logInfo s!"{user}: {folder}: Search for messages older {t}h",
        .search folder (t * 60 * 60),
        .logError s!"{user}: {folder}: Failed to search emails: {st}",
        .logInfo s!"{user}: {folder}: Delete all marked messages",
        .expunge folder],
       .ok ⟨srv, .selected folder⟩) := by
    simp [process_mailbox_folder, hsel, hsearch]
  refine ⟨?_, ?_, ?_, ?_, ?_⟩
  · rw [hpmf]; simp
  · rw [hpmf]; simp [countF, isStoreEv]
  · rw [hpmf]; simp [countF, isFetchEv]
  · rw [hpmf]; simp [countF, isExpungeEv]
  · intro rest
    simp [foldFolders, hpmf]

/-- Witness for the amended C4 on a concrete server: no marks, no fetches,
one expunge. -/
theorem C4_witness :
    countF isStoreEv
      (process_mailbox_folder ⟨searchFailSrv, .auth⟩ "alice" "Archive" 1).1 = 0 ∧
    countF isFetchEv
      (process_mailbox_folder ⟨searchFailSrv, .auth⟩ "alice" "Archive" 1).1 = 0 ∧
    countF isExpungeEv
      (process_mailbox_folder ⟨searchFailSrv, .auth⟩ "alice" "Archive" 1).1 = 1 := by
  obtain ⟨_, h2, h3, h4, _⟩ :=
    C4_search_fail_logs_and_continues searchFailSrv .auth "alice" "Archive" 1 "NO"
      rfl rfl
  exact ⟨h2, h3, h4⟩

/-- Claim C5 counterexample: the fetch of boundary message `"1"` raises; contrary
to the claim, the remaining messages are NOT all marked and the reap does NOT
continue to the commit step. -/
theorem C5_cex_fetch_failure_aborts :
    ¬ (storeRefs
         (process_mailbox_folder ⟨fetchFailSrv, .auth⟩ "alice" "INBOX" 1).1 =
         ["1", "2", "3"] ∧
       countF isExpungeEv
         (process_mailbox_folder ⟨fetchFailSrv, .auth⟩ "alice" "INBOX" 1).1 = 1) := by
  decide

/-- Claim C5 (amended): a fetch failure on a boundary reference (the first or
the last of the result `pre ++ bad :: post`, i.e. `pre = []` or `post = []`)
is not recovered locally: the raised error aborts the folder's reap at that
point.  The marks already issued are exactly those for `pre` — every message
before the failing boundary (all earlier ones when the last reference's fetch
fails, none when the first's fails) — no further message is marked, no
expunge occurs, the exception propagates out of the folder call and the
remaining folders of the account are skipped, leaving the issued marks
uncommitted (it is caught and logged only at the account level). -/
theorem C5_fetch_fail_aborts_folder (srv : Server) (st0 : MailState)
    (user folder : String) (t : Nat) (pre post : List String) (bad m : String)
    (hbound : pre = [] ∨ post = [])
    (hsel : srv.selectOk folder = true)
    (hsearch : srv.searchRes folder (t * 60 * 60) = .ok (pre ++ bad :: post))
    (hfpre : ∀ r ∈ pre, fetchHasDate (srv.fetchRes folder r) = true)
    (hspre : ∀ r ∈ pre, srv.storeRes folder r = none)
    (hfetch : srv.fetchRes folder bad = .raises m) :
    (process_mailbox_folder ⟨srv, st0⟩ user folder t).2 =
        .error (.imapError m) ∧
    storeRefs (process_mailbox_folder ⟨srv, st0⟩ user folder t).1 = pre ∧
    countF isExpungeEv (process_mailbox_folder ⟨srv, st0⟩ user folder t).1 = 0 ∧
    (∀ frest : List (String × Nat),
       (foldFolders ⟨srv, st0⟩ user ((folder, t) :: frest)).2 =
         .error (.imapError m)) := by
  have hbadpos : 0 + pre.length = 0 ∨
      0 + pre.length = (pre ++ bad :: post).length - 1 := by
    rcases hbound with h | h <;> subst h <;> simp
  obtain ⟨hmk2, hmk1⟩ := markAll_fetch_fail srv user folder
    (pre ++ bad :: post).length bad m hfetch pre post 0 hbadpos hfpre hspre
  have hpmf := pmf_err_eq srv st0 user folder t (pre ++ bad :: post)
    (.imapError m) hsel hsearch hmk2
  refine ⟨?_, ?_, ?_, ?_⟩
  · rw [hpmf]
  · rw [hpmf]
    dsimp only
    rw [storeRefs_append, hmk1]
    simp
  · rw [hpmf]
    dsimp only
    rw [countF_append, markAll_no_expunge srv user folder
      (pre ++ bad :: post).length (pre ++ bad :: post) 0]
    simp [countF, isExpungeEv]
  · intro frest
    simp [foldFolders, hpmf]

/-- Witness for the amended C5, on the last-boundary side: the fetch of the
last reference `"3"` raises after `"1"` and `"2"` were already marked; the
folder aborts with exactly those two marks issued and no expunge. -/
theorem C5_witness :
    (process_mailbox_folder ⟨lastFetchFailSrv, .auth⟩ "alice" "INBOX" 1).2 =
      Except.error (.imapError "FETCH failed") ∧
    storeRefs
      (process_mailbox_folder ⟨lastFetchFailSrv, .auth⟩ "alice" "INBOX" 1).1 =
      ["1", "2"] ∧
    countF isExpungeEv
      (process_mailbox_folder ⟨lastFetchFailSrv, .auth⟩ "alice" "INBOX" 1).1 =
      0 := by
  obtain ⟨h1, h2, h3, _⟩ :=
    C5_fetch_fail_aborts_folder lastFetchFailSrv .auth "alice" "INBOX" 1
      ["1", "2"] [] "3" "FETCH failed" (Or.inr rfl) rfl rfl
      (by decide) (by decide) (by decide)
  exact ⟨h1, h2, h3⟩

/-- Evaluation of `process_mailbox_folder` when the `SELECT` fails: `imaplib` leaves the
state at `AUTH`, so the following `SEARCH` raises client-side and the
exception propagates out of the folder call; no search, mark or expunge
command is issued. -/
theorem pmf_select_fail (srv : Server) (st0 : MailState) (user folder : String)
    (t : Nat) (hsel : srv.selectOk folder = false) :
    process_mailbox_folder ⟨srv, st0⟩ user folder t =
      ([FEvent.select folder,
        .logInfo s!"{user}: {folder}: Search for messages older {t}h"],
       .error (.imapError "SEARCH command illegal in state AUTH")) := by
  simp [process_mailbox_folder, hsel]

/-- A folder call that returns normally leaves the connection selected on
that folder. -/
theorem pmf_ok_conn (c : Conn) (user folder : String) (t : Nat) (c2 : Conn)
    (h : (process_mailbox_folder c user folder t).2 = .ok c2) :
    c2 = ⟨c.srv, .selected folder⟩ := by
  by_cases hsel : c.srv.selectOk folder = true
  · rcases hs : c.srv.searchRes folder (t * 60 * 60) with refs | st
    · rcases hr : markAll c.srv user folder refs.length refs 0 with ⟨mev, r⟩
      rcases r with _ | e
      · simp [process_mailbox_folder, hsel, hs, hr] at h
        exact h.symm
      · simp [process_mailbox_folder, hsel, hs, hr] at h
    · simp [process_mailbox_folder, hsel, hs] at h
      exact h.symm
  · have hsel2 : c.srv.selectOk folder = false := by simpa using hsel
    simp [process_mailbox_folder, hsel2] at h

/-- A folder loop that completes normally over at least one folder leaves the
connection selected on some folder. -/
theorem foldFolders_ok_state (u : String) :
    ∀ (cutoff : List (String × Nat)) (c c' : Conn), cutoff ≠ [] →
    (foldFolders c u cutoff).2 = .ok c' → ∃ g, c'.state = MailState.selected g
  | [], _, _, hne, _ => absurd rfl hne
  | (f, t) :: rest, c, c', _, h => by
    rcases hp : process_mailbox_folder c u f t with ⟨ev, r⟩
    rcases r with e | c2
    · simp [foldFolders, hp] at h
    · rcases rest with _ | ⟨p2, rest2⟩
      · simp [foldFolders, hp] at h
        have hc2 := pmf_ok_conn c u f t c2 (by rw [hp])
        exact ⟨f, by rw [← h, hc2]⟩
      · have h2 : (foldFolders c2 u (p2 :: rest2)).2 = .ok c' := by
          simpa [foldFolders, hp] using h
        exact foldFolders_ok_state u (p2 :: rest2) c2 c' (by simp) h2

/-- Counting events that can occur neither in the connect/login prefix nor
inside folder processing reduces to counting them in the tail. -/
theorem countA_shape (p : AEvent → Bool) (host u : String)
    (fev : List FEvent) (tail : List AEvent)
    (hc : p (AEvent.connect host) = false) (hl : p (AEvent.login u) = false)
    (hf : ∀ e, p (AEvent.inFolder e) = false) :
    countA p ([AEvent.connect host, .login u] ++ fev.map AEvent.inFolder ++ tail) =
      countA p tail := by
  rw [countA_append, countA_append, countA_map_inFolder p hf]
  simp [countA, List.filter_cons, hc, hl]

/-- Evaluation of `process_mailbox` on the normal path: connect and login succeed, the
folder loop returns normally with the connection still selected — `close` and
`logout` follow. -/
theorem pm_events_ok (srv : Server) (host u pw : String)
    (cutoff : List (String × Nat)) (fev : List FEvent) (c1 : Conn) (g : String)
    (hff : foldFolders ⟨srv, .auth⟩ u cutoff = (fev, .ok c1))
    (hg : c1.state = .selected g) :
    process_mailbox ⟨⟨host, u, pw⟩, false, none, srv⟩ cutoff =
      ([AEvent.connect host, .login u] ++ fev.map AEvent.inFolder ++
       [.close, .logout], none) := by
  simp [process_mailbox, hff, hg]

/-- Evaluation of `process_mailbox` when the folder loop raises: the exception is caught and
logged by the `except` handlers of lines 73-76, and `close`/`logout` are
skipped. -/
theorem pm_events_err (srv : Server) (host u pw : String)
    (cutoff : List (String × Nat)) (fev : List FEvent) (e : PyExc)
    (hff : foldFolders ⟨srv, .auth⟩ u cutoff = (fev, .error e)) :
    process_mailbox ⟨⟨host, u, pw⟩, false, none, srv⟩ cutoff =
      ([AEvent.connect host, .login u] ++ fev.map AEvent.inFolder ++
       [.logError (exceptLog u e)], none) := by
  simp [process_mailbox, hff]

/-- Claim C1 counterexample: folder `"F"` fails to select (it does not exist);
contrary to the claim, the next folder `"G"` of the same account is never
attempted — its `SELECT` never happens. -/
theorem C1_cex_select_failure_skips_siblings :
    ¬ 0 < countA (isSelectAFor "G")
        (process_mailbox noFolderAcct [("F", 1), ("G", 2)]).1 := by
  decide

/-- Claim C1 (amended): when reaping a folder fails at the select step, the
subsequent search raises `IMAP4.error`; that failure is logged — but at the
ACCOUNT level, by the handler of line 73 — and it aborts the account's folder
loop: none of the remaining folders is attempted. -/
theorem C1_select_fail_aborts_folder_loop (srv : Server) (host u pw : String)
    (f : String) (t : Nat) (rest : List (String × Nat))
    (hsel : srv.selectOk f = false) :
    process_mailbox ⟨⟨host, u, pw⟩, false, none, srv⟩ ((f, t) :: rest) =
      ([AEvent.connect host, .login u,
        .inFolder (.select f),
        .inFolder (.logInfo s!"{u}: {f}: Search for messages older {t}h"),
        .logError (exceptLog u
          (.imapError "SEARCH command illegal in state AUTH"))],
       none) := by
  have hpmf := pmf_select_fail srv .auth u f t hsel
  have hff : foldFolders ⟨srv, .auth⟩ u ((f, t) :: rest) =
      ([FEvent.select f,
        .logInfo s!"{u}: {f}: Search for messages older {t}h"],
       .error (.imapError "SEARCH command illegal in state AUTH")) := by
    simp [foldFolders, hpmf]
  rw [pm_events_err srv host u pw _ _ _ hff]
  simp

/-- Witness for the amended C1: with `"F"` missing, sibling folder `"G"` is
never selected. -/
theorem C1_witness :
    countA (isSelectAFor "G")
      (process_mailbox ⟨⟨"imap.example.org", "alice", "pw"⟩, false, none,
        noFolderSrv⟩ [("F", 1), ("G", 2)]).1 = 0 := by
  rw [C1_select_fail_aborts_folder_loop noFolderSrv "imap.example.org" "alice"
    "pw" "F" 1 [("G", 2)] (by decide)]
  decide

/-- Claim C2 counterexample: connect and login succeed, but reaping the single
configured folder raises (its select fails); contrary to the claim, session
teardown is NOT invoked on this exit path — neither `close` nor `logout`
happens. -/
theorem C2_cex_no_teardown_on_folder_error :
    ¬ (countA isCloseEv (process_mailbox noFolderAcct [("F", 1)]).1 = 1 ∧
       countA isLogoutEv (process_mailbox noFolderAcct [("F", 1)]).1 = 1) := by
  decide

/-- Claim C2 (amended): for an account whose connect and login succeed, session
teardown (`close` then `logout`) is invoked exactly once on the
normal-completion path (every configured folder processed without exception,
at least one folder configured) — but when an exception is raised during the
account's folder processing, both `close` and `logout` are skipped. -/
theorem C2_teardown_only_on_normal_completion (srv : Server)
    (host u pw : String) (cutoff : List (String × Nat)) :
    (cutoff ≠ [] →
      resOk (foldFolders ⟨srv, .auth⟩ u cutoff).2 = true →
      countA isCloseEv
        (process_mailbox ⟨⟨host, u, pw⟩, false, none, srv⟩ cutoff).1 = 1 ∧
      countA isLogoutEv
        (process_mailbox ⟨⟨host, u, pw⟩, false, none, srv⟩ cutoff).1 = 1) ∧
    (resOk (foldFolders ⟨srv, .auth⟩ u cutoff).2 = false →
      countA isCloseEv
        (process_mailbox ⟨⟨host, u, pw⟩, false, none, srv⟩ cutoff).1 = 0 ∧
      countA isLogoutEv
        (process_mailbox ⟨⟨host, u, pw⟩, false, none, srv⟩ cutoff).1 = 0) := by
  constructor
  · intro hne hok
    rcases hff : foldFolders ⟨srv, .auth⟩ u cutoff with ⟨fev, r⟩
    rcases r with e | c1
    · rw [hff] at hok
      simp [resOk] at hok
    · obtain ⟨g, hg⟩ :=
        foldFolders_ok_state u cutoff ⟨srv, .auth⟩ c1 hne (by rw [hff])
      rw [pm_events_ok srv host u pw cutoff fev c1 g hff hg]
      dsimp only
      constructor
      · rw [countA_shape isCloseEv host u fev _ rfl rfl (fun _ => rfl)]
        decide
      · rw [countA_shape isLogoutEv host u fev _ rfl rfl (fun _ => rfl)]
        decide
  · intro herr
    rcases hff : foldFolders ⟨srv, .auth⟩ u cutoff with ⟨fev, r⟩
    rcases r with e | c1
    · rw [pm_events_err srv host u pw cutoff fev e hff]
      dsimp only
      constructor
      · rw [countA_shape isCloseEv host u fev _ rfl rfl (fun _ => rfl)]
        simp [countA, List.filter_cons, isCloseEv]
      · rw [countA_shape isLogoutEv host u fev _ rfl rfl (fun _ => rfl)]
        simp [countA, List.filter_cons, isLogoutEv]
    · rw [hff] at herr
      simp [resOk] at herr

/-- Witness for the amended C2: on a fully successful account, `close` and
`logout` each happen exactly once. -/
theorem C2_witness :
    countA isCloseEv (process_mailbox ⟨⟨"imap.example.org", "alice", "pw"⟩,
      false, none, happySrv⟩ [("INBOX", 24)]).1 = 1 ∧
    countA isLogoutEv (process_mailbox ⟨⟨"imap.example.org", "alice", "pw"⟩,
      false, none, happySrv⟩ [("INBOX", 24)]).1 = 1 :=
  (C2_teardown_only_on_normal_completion happySrv "imap.example.org" "alice"
    "pw" [("INBOX", 24)]).1 (by decide) (by decide)

/-- Claim C3 at its failing input (code bug): the connection attempt to the
first account raises before the local `user` is assigned (lines 61-62); the
`except` handler itself then raises `UnboundLocalError` while interpolating
the unbound `user` (lines 74/76).  That exception escapes `process_mailbox`,
and `main` (lines 100-101) has no handler — so, contrary to the claim, the
error is not logged and the second account is never attempted. -/
theorem C3_connect_fail_unbound_local_aborts_run :
    runAccounts [connFailAcct, happyAcct] [("INBOX", 24)] =
      ([], some (.unboundLocal "user")) ∧
    countA (isConnectEvTo "imap.example.org")
      (runAccounts [connFailAcct, happyAcct] [("INBOX", 24)]).1 = 0 := by
  decide

/-- Claim C6 (confirmed): an authentication failure on an earlier account does
not prevent later accounts from being attempted: the `IMAP4.error` raised by
`login` is caught and logged inside `process_mailbox` (line 73), which
returns normally, and `main`'s loop continues with the remaining accounts
unchanged. -/
theorem C6_auth_fail_continues_with_next_account (host u pw m : String)
    (srv : Server) (rest : List Account) (cutoff : List (String × Nat)) :
    runAccounts (⟨⟨host, u, pw⟩, false, some m, srv⟩ :: rest) cutoff =
      ([AEvent.connect host, .login u, .logError s!"{u}: IMAP error: {m}"] ++
         (runAccounts rest cutoff).1,
       (runAccounts rest cutoff).2) := by
  simp [runAccounts, process_mailbox]

theorem storeRefsA_append (l1 l2 : List AEvent) :
    storeRefsA (l1 ++ l2) = storeRefsA l1 ++ storeRefsA l2 := by
  simp [storeRefsA]

theorem countA_map_inFolder_eq (p : AEvent → Bool) (q : FEvent → Bool)
    (hpq : ∀ e, p (AEvent.inFolder e) = q e) :
    ∀ l : List FEvent, countA p (l.map AEvent.inFolder) = countF q l
  | [] => rfl
  | a :: l => by
    simp only [List.map_cons, countA, countF, List.filter_cons, hpq a]
    by_cases hq : q a = true
    · simp only [hq, if_true, List.length_cons]
      exact congrArg Nat.succ (countA_map_inFolder_eq p q hpq l)
    · simp only [Bool.not_eq_true] at hq
      simp only [hq, Bool.false_eq_true, if_false]
      exact countA_map_inFolder_eq p q hpq l



/-- One mark-loop iteration never issues a select. -/
theorem markOne_no_select (g : String) (srv : Server) (user folder : String)
    (total i : Nat) (num : String) :
    countF (isSelectEvFor g) (markOne srv user folder total i num).1 = 0 := by
  by_cases hb : i = 0 ∨ i = total - 1
  · rcases hfr : srv.fetchRes folder num with d | _ | mm <;>
      simp [markOne, hb, hfr, countF, isSelectEvFor]
  · simp [markOne, hb, countF, isSelectEvFor]

/-- The mark loop never issues a select. -/
theorem markAll_no_select (g : String) (srv : Server) (user folder : String)
    (total : Nat) :
    ∀ (msgs : List String) (i : Nat),
      countF (isSelectEvFor g) (markAll srv user folder total msgs i).1 = 0
  | [], _ => rfl
  | num :: rest, i => by
    rcases hone : markOne srv user folder total i num with ⟨ev, r⟩
    have hev : countF (isSelectEvFor g) ev = 0 := by
      have h := markOne_no_select g srv user folder total i num
      rw [hone] at h
      exact h
    rcases r with _ | e
    · simp [markAll, hone, countF_append, hev,
        markAll_no_select g srv user folder total rest (i + 1)]
    · simp [markAll, hone, hev]

/-- Claim C10 (confirmed): when the store operation raises on one message
mid-loop, no later message of that folder is marked, the folder's expunge
never executes, no remaining folder of the account is attempted, session
teardown is skipped, and the exception is caught and logged at the account
level — leaving the already-issued deletion marks uncommitted. -/
theorem C10_store_fail_aborts_account (srv : Server) (host u pw f : String)
    (t : Nat) (rest : List (String × Nat)) (pre post : List String)
    (bad m : String)
    (hsel : srv.selectOk f = true)
    (hsearch : srv.searchRes f (t * 60 * 60) = .ok (pre ++ bad :: post))
    (hf : ∀ r ∈ pre ++ bad :: post, fetchHasDate (srv.fetchRes f r) = true)
    (hpre : ∀ r ∈ pre, srv.storeRes f r = none)
    (hbad : srv.storeRes f bad = some m) :
    storeRefsA (process_mailbox ⟨⟨host, u, pw⟩, false, none, srv⟩
        ((f, t) :: rest)).1 = pre ++ [bad] ∧
    countA isExpungeA (process_mailbox ⟨⟨host, u, pw⟩, false, none, srv⟩
        ((f, t) :: rest)).1 = 0 ∧
    countA isCloseEv (process_mailbox ⟨⟨host, u, pw⟩, false, none, srv⟩
        ((f, t) :: rest)).1 = 0 ∧
    countA isLogoutEv (process_mailbox ⟨⟨host, u, pw⟩, false, none, srv⟩
        ((f, t) :: rest)).1 = 0 ∧
    (∀ g, g ≠ f → countA (isSelectAFor g)
      (process_mailbox ⟨⟨host, u, pw⟩, false, none, srv⟩
        ((f, t) :: rest)).1 = 0) ∧
    AEvent.logError (exceptLog u (.imapError m)) ∈
      (process_mailbox ⟨⟨host, u, pw⟩, false, none, srv⟩ ((f, t) :: rest)).1 ∧
    (process_mailbox ⟨⟨host, u, pw⟩, false, none, srv⟩ ((f, t) :: rest)).2 =
      none := by
  obtain ⟨hmk2, hmk1⟩ := markAll_store_fail srv u f (pre ++ bad :: post).length
    bad m hbad pre post 0 hf hpre
  have hpmf := pmf_err_eq srv .auth u f t (pre ++ bad :: post) (.imapError m)
    hsel hsearch hmk2
  have hff : foldFolders ⟨srv, .auth⟩ u ((f, t) :: rest) =
      ([FEvent.select f, .logInfo s!"{u}: {f}: Search for messages older {t}h",
        .search f (t * 60 * 60)] ++
       (markAll srv u f (pre ++ bad :: post).length (pre ++ bad :: post) 0).1,
       .error (.imapError m)) := by
    simp [foldFolders, hpmf]
  have hpm := pm_events_err srv host u pw ((f, t) :: rest) _ (.imapError m) hff
  refine ⟨?_, ?_, ?_, ?_, ?_, ?_, ?_⟩
  · rw [hpm]
    dsimp only
    rw [storeRefsA_append, storeRefsA_append, storeRefsA_map_inFolder,
      storeRefs_append, hmk1]
    simp [storeRefsA]
  · rw [hpm]
    dsimp only
    rw [countA_append, countA_append,
      countA_map_inFolder_eq isExpungeA isExpungeEv (fun e => by cases e <;> rfl),
      countF_append, markAll_no_expunge srv u f (pre ++ bad :: post).length
        (pre ++ bad :: post) 0]
    simp [countA, countF, List.filter_cons, isExpungeA, isExpungeEv]
  · rw [hpm]
    dsimp only
    rw [countA_shape isCloseEv host u _ _ rfl rfl (fun _ => rfl)]
    simp [countA, List.filter_cons, isCloseEv]
  · rw [hpm]
    dsimp only
    rw [countA_shape isLogoutEv host u _ _ rfl rfl (fun _ => rfl)]
    simp [countA, List.filter_cons, isLogoutEv]
  · intro g hg
    rw [hpm]
    dsimp only
    rw [countA_append, countA_append,
      countA_map_inFolder_eq (isSelectAFor g) (isSelectEvFor g)
        (fun e => by cases e <;> rfl),
      countF_append, markAll_no_select g srv u f (pre ++ bad :: post).length
        (pre ++ bad :: post) 0]
    have hfg : (f == g) = false := beq_eq_false_iff_ne.mpr (Ne.symm hg)
    simp [countA, countF, List.filter_cons, isSelectAFor, isSelectEvFor, hfg]
  · rw [hpm]
    simp
  · rw [hpm]

/-- Witness for C10: store of message `"2"` raises — only `"1"` and `"2"` get
marks, no expunge happens for the whole account. -/
theorem C10_witness :
    storeRefsA (process_mailbox ⟨⟨"imap.example.org", "alice", "pw"⟩, false,
      none, storeFailSrv⟩ [("INBOX", 24), ("Trash", 1)]).1 = ["1", "2"] ∧
    countA isExpungeA (process_mailbox ⟨⟨"imap.example.org", "alice", "pw"⟩,
      false, none, storeFailSrv⟩ [("INBOX", 24), ("Trash", 1)]).1 = 0 := by
  obtain ⟨h1, h2, _, _, _, _, _⟩ :=
    C10_store_fail_aborts_account storeFailSrv "imap.example.org" "alice" "pw"
      "INBOX" 24 [("Trash", 1)] ["1"] ["3"] "2" "STORE failed"
      rfl rfl (fun _ _ => rfl) (by decide) (by decide)
  exact ⟨h1, h2⟩
